import Mathlib

/-!
Verification of the quickoo storefront's client-side control logic: the
cart store (`CartContext`), the auth-driven navigation controller
(`App.tsx`), the profile-completeness rules (`AuthContext`,
`ProfilePage`), and the location/service gate (`HomePage`).

Each definition is a shallow embedding of the corresponding TypeScript
function; JS semantics that matter (string truthiness in conditions,
`Array.prototype.includes` substring search after `toLowerCase`) are
modelled explicitly.  Quantities and prices are modelled as `Int`
(call sites only ever pass integers).
-/

namespace Quickoo

/-- A cart line, mirroring the `CartItem` interface of `CartContext`. -/
structure CartItem where
  id : String
  name : String
  price : Int
  quantity : Int
  image_url : String
  shop_id : String
  unit : String
deriving DecidableEq, Repr

/-- A catalog product, mirroring the `Product` interface of `CartContext`. -/
structure Product where
  id : String
  name : String
  selling_price : Int
  image_url : String
  shop_id : String
  unit : String
deriving DecidableEq, Repr

/-- JS truthiness of a `string | null` value: `null` and the empty string
are falsy, every other string is truthy. -/
def strTruthy : Option String → Bool
  | none => false
  | some s => !(s == "")

/-- The `currentShopId` state as maintained by the `useEffect` on `items`
in `CartProvider`: `setCurrentShopId(items[0].shop_id)` when the list is
non-empty, `setCurrentShopId(null)` otherwise.  Between user events the
effect has always run, so the shop id is a function of the item list. -/
def currentShopId (items : List CartItem) : Option String :=
  match items with
  | [] => none
  | it :: _ => some it.shop_id

/-- The cart line built from a product by `addToCart`
(`quantity: 1`, `price: product.selling_price`). -/
def newCartItem (p : Product) : CartItem :=
  { id := p.id, name := p.name, price := p.selling_price, quantity := 1,
    image_url := p.image_url, shop_id := p.shop_id, unit := p.unit }

/-- The different-shop guard of `addToCart`:
`currentShopId && currentShopId !== product.shop_id` (JS truthiness,
so an empty-string shop id is falsy). -/
def shopConflict (p : Product) (items : List CartItem) : Prop :=
  strTruthy (currentShopId items) = true ∧ currentShopId items ≠ some p.shop_id

instance (p : Product) (items : List CartItem) : Decidable (shopConflict p items) := by
  unfold shopConflict; infer_instance

/-- Model of `addToCart` from `CartContext`.  `confirmed` is the result of the
`confirm(...)` dialog, consulted only on the different-shop path. -/
def addToCart (confirmed : Bool) (p : Product) (items : List CartItem) : List CartItem :=
  if shopConflict p items then
    if confirmed then [newCartItem p] else items
  else if items.any (fun it => it.id == p.id) then
    items.map (fun it => if it.id == p.id then { it with quantity := it.quantity + 1 } else it)
  else
    items ++ [newCartItem p]

/-- Model of `removeFromCart` from `CartContext`: `prev.filter(item => item.id !== productId)`. -/
def removeFromCart (productId : String) (items : List CartItem) : List CartItem :=
  items.filter (fun it => !(it.id == productId))

/-- Model of `updateQuantity` from `CartContext`: a non-positive quantity removes the
line, otherwise the matching line's quantity is set. -/
def updateQuantity (productId : String) (quantity : Int) (items : List CartItem) :
    List CartItem :=
  if quantity ≤ 0 then removeFromCart productId items
  else items.map (fun it => if it.id == productId then { it with quantity := quantity } else it)

/-- Model of `clearCart` from `CartContext`. -/
def clearCart (_items : List CartItem) : List CartItem := []

/-- Model of `getTotalItems` from `CartContext`:
`items.reduce((total, item) => total + item.quantity, 0)`. -/
def getTotalItems (items : List CartItem) : Int :=
  items.foldl (fun total it => total + it.quantity) 0

/-- The cart-store operations, for stating reachability. -/
inductive CartOp where
  | add (confirmed : Bool) (p : Product)
  | remove (productId : String)
  | update (productId : String) (quantity : Int)
  | clear
deriving Repr

/-- Apply one cart operation. -/
def applyOp (op : CartOp) (items : List CartItem) : List CartItem :=
  match op with
  | .add confirmed p => addToCart confirmed p items
  | .remove productId => removeFromCart productId items
  | .update productId quantity => updateQuantity productId quantity items
  | .clear => clearCart items

/-- Run a sequence of cart operations from the empty cart. -/
def runOps (ops : List CartOp) : List CartItem :=
  ops.foldl (fun c op => applyOp op c) []

/-- All lines share the cart's current shop id (vacuously true on the
empty cart). -/
def shareShop (items : List CartItem) : Prop :=
  ∀ it ∈ items, currentShopId items = some it.shop_id

instance (items : List CartItem) : Decidable (shareShop items) := by
  unfold shareShop; infer_instance

/-- The spec's cart invariants (§3): every line's shop id equals the
cart's current shop id (vacuous on the empty cart), every quantity is at
least 1, and product ids are unique. -/
def cartInv (items : List CartItem) : Prop :=
  shareShop items ∧
  (∀ it ∈ items, 1 ≤ it.quantity) ∧
  (items.map (fun it => it.id)).Nodup

instance (items : List CartItem) : Decidable (cartInv items) := by
  unfold cartInv; infer_instance

/-- Side condition under which the invariants survive `addToCart`: the
added product carries a non-empty shop id (an empty-string shop id is
falsy in JS, so it slips past the different-shop confirmation guard). -/
def opOk (op : CartOp) : Prop :=
  match op with
  | .add _ p => p.shop_id ≠ ""
  | _ => True

instance (op : CartOp) : Decidable (opOk op) := by
  unfold opOk
  cases op <;> infer_instance

/-- Strengthened invariant used for the induction: the spec invariants
plus non-emptiness of the stored shop ids. -/
def cartInvNE (items : List CartItem) : Prop :=
  cartInv items ∧ ∀ it ∈ items, it.shop_id ≠ ""

instance (items : List CartItem) : Decidable (cartInvNE items) := by
  unfold cartInvNE; infer_instance

/-! ### Persisted cart blob (localStorage `cart` key)

`CartProvider` serializes the item list with `JSON.stringify` on every
mutation and rehydrates it with `JSON.parse` at startup.  We model the
blob at the structural JSON level: each line becomes an object whose
fields appear in the declaration order used by the source literals, and
parsing reads the fields back by key. -/

/-- A JSON leaf value as produced for a cart line field. -/
inductive JsonVal where
  | jnum (n : Int)
  | jstr (s : String)
deriving DecidableEq, Repr

/-- A serialized cart line: a JSON object as a key/value list. -/
abbrev JsonObj := List (String × JsonVal)

/-- The serialized item list. -/
abbrev CartBlob := List JsonObj

/-- Serialization of one cart line, mirroring the object literal shape
`{ id, name, price, quantity, image_url, shop_id, unit }`. -/
def encodeItem (it : CartItem) : JsonObj :=
  [("id", .jstr it.id), ("name", .jstr it.name), ("price", .jnum it.price),
   ("quantity", .jnum it.quantity), ("image_url", .jstr it.image_url),
   ("shop_id", .jstr it.shop_id), ("unit", .jstr it.unit)]

/-- Read a string field of a parsed object. -/
def lookupStr (k : String) (o : JsonObj) : Option String :=
  match o.lookup k with
  | some (.jstr s) => some s
  | _ => none

/-- Read a numeric field of a parsed object. -/
def lookupNum (k : String) (o : JsonObj) : Option Int :=
  match o.lookup k with
  | some (.jnum n) => some n
  | _ => none

/-- Recover a cart line from a parsed object (the shape `JSON.parse`
yields on `JSON.stringify` output). -/
def decodeItem (o : JsonObj) : Option CartItem :=
  match lookupStr "id" o, lookupStr "name" o, lookupNum "price" o,
      lookupNum "quantity" o, lookupStr "image_url" o, lookupStr "shop_id" o,
      lookupStr "unit" o with
  | some i, some n, some pr, some q, some im, some sh, some u =>
      some { id := i, name := n, price := pr, quantity := q,
             image_url := im, shop_id := sh, unit := u }
  | _, _, _, _, _, _, _ => none

/-- Serialization of the item list (`JSON.stringify(items)`) at the structural level. -/
def serializeCart (items : List CartItem) : CartBlob :=
  items.map encodeItem

/-- Structural recovery of the whole item list. -/
def decodeItems : CartBlob → Option (List CartItem)
  | [] => some []
  | o :: rest =>
    match decodeItem o, decodeItems rest with
    | some it, some its => some (it :: its)
    | _, _ => none

/-- The persistence effect of `CartProvider` (`localStorage.setItem`):
the storage cell now holds the serialized item list. -/
def persistCart (items : List CartItem) : Option CartBlob :=
  some (serializeCart items)

/-- The startup initializer of `CartProvider`:
`saved ? JSON.parse(saved) : []`. -/
def rehydrate (storage : Option CartBlob) : List CartItem :=
  match storage with
  | some blob => (decodeItems blob).getD []
  | none => []

/-! ### Cart reaction to session transitions

The second `useEffect` of `CartProvider` (the logout monitor) observes
`user` and `loading` and keeps `previousUserRef` / `isInitialLoad`. -/

/-- The cart-store state seen by the logout-monitoring effect. -/
structure CartStoreState where
  items : List CartItem
  storage : Option CartBlob
  previousUser : Option String
  isInitialLoad : Bool
deriving DecidableEq, Repr

/-- One run of the logout-monitoring effect, given the current session
(`user`, `loading`).  Returns the updated store state and the number of
user-facing notices (`alert`) emitted. -/
def sessionEffect (user : Option String) (loading : Bool) (s : CartStoreState) :
    CartStoreState × Nat :=
  if loading || s.isInitialLoad then
    if !loading && s.isInitialLoad then
      ({ s with isInitialLoad := false, previousUser := user }, 0)
    else
      (s, 0)
  else if s.previousUser.isSome && user.isNone && decide (0 < s.items.length) then
    ({ s with items := [], storage := none, previousUser := user }, 1)
  else
    ({ s with previousUser := user }, 0)

/-! ### Session profile completeness -/

/-- The profile record kept in the `users` document
(`AuthContext.UserProfile` / `ProfilePage` form state). -/
structure Profile where
  fullName : String
  phone : String
  address : String
  city : String
  pincode : String
deriving DecidableEq, Repr

/-- Model of `isProfileComplete` from `AuthContext`: no profile, or any of the five
required fields empty (falsy), means incomplete. -/
def isProfileComplete (userProfile : Option Profile) : Bool :=
  match userProfile with
  | none => false
  | some p =>
    !(p.fullName == "") && !(p.phone == "") && !(p.address == "") &&
    !(p.city == "") && !(p.pincode == "")

/-! ### Navigation controller (`App.tsx`) -/

/-- The pages of the app. -/
inductive Page where
  | home | shop | cart | checkout | orders | profile | auth
deriving DecidableEq, Repr

/-- The navigation-relevant state of `AppContent`. -/
structure AppState where
  currentPage : Page
  intendedDestination : Option Page
  showCartReviewMessage : Bool
  hasCheckedProfile : Bool
deriving DecidableEq, Repr

/-- Model of `handleNavigation` from `App.tsx`.  `user` is the session identity and
`profileComplete` the value of `isProfileComplete()`.  The second
component records whether the user was notified (`alert`). -/
def handleNavigation (page : Page) (user : Option String) (profileComplete : Bool)
    (s : AppState) : AppState × Bool :=
  if page = .profile ∨ page = .orders ∨ page = .checkout then
    if user.isNone then
      if page = .checkout then
        ({ s with intendedDestination := some .cart, currentPage := .auth }, false)
      else
        ({ s with intendedDestination := some page, currentPage := .auth }, false)
    else if page = .checkout ∧ profileComplete = false then
      ({ s with intendedDestination := some .checkout, currentPage := .profile }, true)
    else
      ({ s with currentPage := page }, false)
  else
    ({ s with currentPage := page }, false)

/-- The post-login navigation effect of `AppContent` (the `useEffect` on
`user`/`loading`/`hasCheckedProfile`).  Returns the updated state and
whether the user was notified (`alert`). -/
def authEffect (user : Option String) (loading : Bool) (profileComplete : Bool)
    (s : AppState) : AppState × Bool :=
  if user.isSome ∧ loading = false ∧ s.hasCheckedProfile = false then
    let s1 := { s with hasCheckedProfile := true }
    if s1.currentPage = .auth then
      match s1.intendedDestination with
      | some dest =>
        if dest = .checkout ∧ profileComplete = false then
          ({ s1 with currentPage := .profile, intendedDestination := none }, true)
        else
          ({ s1 with currentPage := dest,
                     showCartReviewMessage :=
                       if dest = .cart then true else s1.showCartReviewMessage,
                     intendedDestination := none }, false)
      | none => ({ s1 with currentPage := .home }, false)
    else
      (s1, false)
  else if user.isNone then
    ({ s with hasCheckedProfile := false, intendedDestination := none }, false)
  else
    (s, false)

/-- The `onProfileComplete` callback `App.tsx` hands to `ProfilePage`. -/
def onProfileComplete (s : AppState) : AppState :=
  if s.intendedDestination = some .checkout then
    { s with showCartReviewMessage := true, currentPage := .cart,
             intendedDestination := none }
  else
    { s with currentPage := .home }

/-- The `isComplete` flag as computed inside `ProfilePage.handleSave`: all five
required form fields non-empty. -/
def profileFieldsComplete (p : Profile) : Bool :=
  !(p.fullName == "") && !(p.phone == "") && !(p.address == "") &&
  !(p.city == "") && !(p.pincode == "")

/-- Model of `ProfilePage.handleSave` restricted to its navigation effect: when
the saved profile is complete it invokes `onProfileComplete`, otherwise
the page state is untouched. -/
def handleSave (p : Profile) (s : AppState) : AppState :=
  if profileFieldsComplete p then onProfileComplete s else s

/-! ### Location / service gate (`HomePage`) -/

/-- Prefix test on character lists (exact, case already folded). -/
def isPrefixList : List Char → List Char → Bool
  | [], _ => true
  | _ :: _, [] => false
  | a :: as, b :: bs => a == b && isPrefixList as bs

/-- Substring test on character lists, the semantics of JS
`String.prototype.includes`. -/
def isSubstrList : List Char → List Char → Bool
  | needle, [] => needle.isEmpty
  | needle, c :: t => isPrefixList needle (c :: t) || isSubstrList needle t

/-- Lower-case a string's characters (the effect of `toLowerCase` on the
labels used here). -/
def jsLower (s : String) : List Char :=
  s.toList.map Char.toLower

/-- The allow-list of serviceable place names in
`HomePage.checkServiceAvailability`. -/
def availableCities : List String :=
  ["Ramagiri", "ramagiri", "RAMAGIRI"]

/-- Model of `checkServiceAvailability` from `HomePage`: bidirectional
case-insensitive substring match of the label against the allow-list. -/
def checkServiceAvailability (city : String) : Bool :=
  availableCities.any (fun availableCity =>
    isSubstrList (jsLower availableCity) (jsLower city) ||
    isSubstrList (jsLower city) (jsLower availableCity))

/-- Which blocking UI `HomePage` renders for a location state. -/
inductive GateUI where
  | permissionPrompt | serviceUnavailable | normalUI
deriving DecidableEq, Repr

/-- The gating branches at the top of `HomePage`'s render: the
permission-request page when the label is `Location access denied`,
else the service-unavailable page for a signed-in user with a resolved
label and `serviceAvailable` false, else the normal page. -/
def renderGate (userPresent : Bool) (locationName : String)
    (serviceAvailable : Bool) : GateUI :=
  if locationName = "Location access denied" then
    .permissionPrompt
  else if userPresent = true ∧ locationName ≠ "Your Location" ∧
      locationName ≠ "Location unavailable" ∧
      locationName ≠ "Getting location..." ∧ serviceAvailable = false then
    .serviceUnavailable
  else
    .normalUI

/-- A sequence of `addToCart` calls from the empty cart;
each call carries its confirmation-dialog outcome. -/
def runAdds (ps : List (Bool × Product)) : List CartItem :=
  ps.foldl (fun acc x => addToCart x.1 x.2 acc) []

/-! ### Sample data for witnesses and counterexamples -/

/-- A stored cart line of shop `shop1`. -/
def sampleItemA : CartItem :=
  { id := "p1", name := "Rice", price := 50, quantity := 2,
    image_url := "imgA", shop_id := "shop1", unit := "kg" }

/-- A second stored cart line of shop `shop1`. -/
def sampleItemB : CartItem :=
  { id := "p2", name := "Dal", price := 90, quantity := 1,
    image_url := "imgB", shop_id := "shop1", unit := "kg" }

/-- A cart line whose shop id is the empty string. -/
def sampleItemEmptyShop : CartItem :=
  { id := "p1", name := "Rice", price := 50, quantity := 1,
    image_url := "imgA", shop_id := "", unit := "kg" }

/-- A product carrying an empty-string shop id. -/
def productEmptyShop : Product :=
  { id := "p1", name := "Rice", selling_price := 50,
    image_url := "imgA", shop_id := "", unit := "kg" }

/-- A product of shop `shop2`. -/
def productShop2 : Product :=
  { id := "p2", name := "Dal", selling_price := 90,
    image_url := "imgB", shop_id := "shop2", unit := "kg" }

/-- A product of shop `shop1`. -/
def productShop1 : Product :=
  { id := "p3", name := "Oil", selling_price := 120,
    image_url := "imgD", shop_id := "shop1", unit := "l" }

/-- A product with `sampleItemA`'s product id but a different shop and
different display fields. -/
def productSameIdOtherShop : Product :=
  { id := "p1", name := "Bread", selling_price := 30,
    image_url := "imgC", shop_id := "shop2", unit := "loaf" }

/-- A product with `sampleItemA`'s product id and shop but different
display fields. -/
def productSameIdSameShop : Product :=
  { id := "p1", name := "Basmati", selling_price := 60,
    image_url := "imgE", shop_id := "shop1", unit := "bag" }

/-- A signed-in cart-store state holding one line. -/
def cartStoreSample : CartStoreState :=
  { items := [sampleItemA], storage := some (serializeCart [sampleItemA]),
    previousUser := some "user1", isInitialLoad := false }

/-- A navigation state on the home page, anonymous steady state. -/
def appStateHomeSample : AppState :=
  { currentPage := .home, intendedDestination := none,
    showCartReviewMessage := false, hasCheckedProfile := false }

/-- A navigation state on the cart page, signed-in steady state. -/
def appStateCartSample : AppState :=
  { currentPage := .cart, intendedDestination := none,
    showCartReviewMessage := false, hasCheckedProfile := true }

/-- A profile with an empty address field (incomplete). -/
def profileIncompleteSample : Profile :=
  { fullName := "Asha", phone := "9000000000", address := "",
    city := "Ramagiri", pincode := "505001" }

/-- A fully filled profile. -/
def profileCompleteSample : Profile :=
  { fullName := "Asha", phone := "9000000000", address := "12 Main Rd",
    city := "Ramagiri", pincode := "505001" }

/-! ### Helper lemmas -/

theorem foldl_add_quantity (l : List CartItem) (a : Int) :
    l.foldl (fun total it => total + it.quantity) a
      = a + (l.map (fun it => it.quantity)).sum := by
  induction l generalizing a with
  | nil => simp
  | cons x t ih => simp [List.foldl_cons, ih, add_assoc]

theorem getTotalItems_eq_sum (l : List CartItem) :
    getTotalItems l = (l.map (fun it => it.quantity)).sum := by
  simpa [getTotalItems] using foldl_add_quantity l 0

theorem map_field_eq {α : Type} (f : CartItem → CartItem) (g : CartItem → α)
    (hfg : ∀ it, g (f it) = g it) (c : List CartItem) :
    (c.map f).map g = c.map g := by
  induction c with
  | nil => rfl
  | cons a t ih => simp [hfg, ih]

theorem any_id_iff (pid : String) (c : List CartItem) :
    (c.any (fun it => it.id == pid) = true) ↔ pid ∈ c.map (fun it => it.id) := by
  simp [List.any_eq_true, List.mem_map]

theorem no_conflict_of_same_shop {s : String} {p : Product} {c : List CartItem}
    (hc : ∀ it ∈ c, it.shop_id = s) (hp : p.shop_id = s) : ¬ shopConflict p c := by
  cases c with
  | nil => simp [shopConflict, currentShopId, strTruthy]
  | cons a t =>
    have ha : a.shop_id = s := hc a (by simp)
    simp [shopConflict, currentShopId, ha, hp]

theorem map_untouched (pid : String) (f : CartItem → CartItem) (c : List CartItem)
    (h : pid ∉ c.map (fun it => it.id)) :
    c.map (fun it => if it.id == pid then f it else it) = c := by
  induction c with
  | nil => rfl
  | cons a t ih =>
    have h1 : pid ≠ a.id ∧ pid ∉ t.map (fun it => it.id) := by simpa using h
    have ha : ¬ ((a.id == pid) = true) := by
      simp only [beq_iff_eq]
      exact fun he => h1.1 he.symm
    simp only [List.map_cons, if_neg ha, ih h1.2]

theorem incr_sum (pid : String) (c : List CartItem)
    (hnd : (c.map (fun it => it.id)).Nodup)
    (hmem : pid ∈ c.map (fun it => it.id)) :
    ((c.map (fun it =>
        if it.id == pid then { it with quantity := it.quantity + 1 } else it)).map
          (fun it => it.quantity)).sum
      = (c.map (fun it => it.quantity)).sum + 1 := by
  induction c with
  | nil => simp at hmem
  | cons a t ih =>
    simp only [List.map_cons, List.nodup_cons] at hnd
    by_cases ha : a.id = pid
    · have hnt : pid ∉ t.map (fun it => it.id) := by
        simpa [ha] using hnd.1
      have htu : t.map (fun it =>
          if it.id == pid then { it with quantity := it.quantity + 1 } else it) = t :=
        map_untouched pid _ t hnt
      have hpos : (a.id == pid) = true := by simp [ha]
      simp only [List.map_cons, if_pos hpos, htu, List.sum_cons]
      show a.quantity + 1 + (t.map (fun it => it.quantity)).sum
        = a.quantity + (t.map (fun it => it.quantity)).sum + 1
      ring
    · have hmt : pid ∈ t.map (fun it => it.id) := by
        rcases (by simpa using hmem : pid = a.id ∨ pid ∈ t.map (fun it => it.id)) with h | h
        · exact absurd h.symm ha
        · exact h
      have ha' : ¬ ((a.id == pid) = true) := by
        simp only [beq_iff_eq]
        exact ha
      simp only [List.map_cons, if_neg ha', List.sum_cons, ih hnd.2 hmt]
      ring

theorem shareShop_of_all_eq {s : String} {c : List CartItem}
    (h : ∀ it ∈ c, it.shop_id = s) : shareShop c := by
  cases c with
  | nil => intro it hit; simp at hit
  | cons a t =>
    intro it hit
    simp [currentShopId, h a (by simp), h it hit]

theorem shop_pairwise {c : List CartItem} (h : shareShop c) :
    ∀ it1 ∈ c, ∀ it2 ∈ c, it1.shop_id = it2.shop_id := by
  intro it1 h1 it2 h2
  have e1 := h it1 h1
  have e2 := h it2 h2
  have : some it1.shop_id = some it2.shop_id := e1 ▸ e2
  exact (Option.some.injEq _ _ ▸ this).symm ▸ rfl

theorem shareShop_filter (q : CartItem → Bool) {c : List CartItem}
    (h : shareShop c) : shareShop (c.filter q) := by
  cases hf : c.filter q with
  | nil => intro it hit; simp at hit
  | cons b t =>
    intro it hit
    have hb : b ∈ c := List.mem_of_mem_filter (by rw [hf]; exact List.mem_cons_self b t)
    have hi : it ∈ c := List.mem_of_mem_filter (hf ▸ hit)
    have : b.shop_id = it.shop_id := shop_pairwise h b hb it hi
    simp [currentShopId, this]

theorem nodup_ids_filter (q : CartItem → Bool) {c : List CartItem}
    (h : (c.map (fun it => it.id)).Nodup) :
    ((c.filter q).map (fun it => it.id)).Nodup := by
  have hsub : List.Sublist (c.filter q) c := List.filter_sublist c
  exact List.Nodup.sublist (List.Sublist.map (fun it => it.id) hsub) h

theorem shareShop_map {c : List CartItem} (f : CartItem → CartItem)
    (hf : ∀ it, (f it).shop_id = it.shop_id) (h : shareShop c) :
    shareShop (c.map f) := by
  cases c with
  | nil => intro it hit; simp at hit
  | cons a t =>
    intro it hit
    rcases List.mem_map.mp hit with ⟨x, hx, he⟩
    have hax : some a.shop_id = some x.shop_id := by
      have := h x hx
      simpa [currentShopId] using this
    simp only [List.map_cons, currentShopId, hf a, ← he, hf x]
    exact hax

/-- Invariant preservation for `removeFromCart`. -/
theorem cartInvNE_remove (pid : String) {c : List CartItem}
    (h : cartInvNE c) : cartInvNE (removeFromCart pid c) := by
  obtain ⟨⟨hs, hq, hn⟩, hne⟩ := h
  refine ⟨⟨shareShop_filter _ hs, ?_, nodup_ids_filter _ hn⟩, ?_⟩
  · intro it hit
    exact hq it (List.mem_of_mem_filter hit)
  · intro it hit
    exact hne it (List.mem_of_mem_filter hit)

/-- Invariant preservation for the quantity-setting branch of
`updateQuantity` and for the increment branch of `addToCart`: any
rewrite that only changes quantities to positive values keeps the
invariants. -/
theorem cartInvNE_qmap {c : List CartItem} (f : CartItem → CartItem)
    (hid : ∀ it, (f it).id = it.id)
    (hshop : ∀ it, (f it).shop_id = it.shop_id)
    (hq : ∀ it ∈ c, 1 ≤ it.quantity → 1 ≤ (f it).quantity)
    (h : cartInvNE c) : cartInvNE (c.map f) := by
  obtain ⟨⟨hs, hq0, hn⟩, hne⟩ := h
  refine ⟨⟨shareShop_map f hshop hs, ?_, ?_⟩, ?_⟩
  · intro it hit
    rcases List.mem_map.mp hit with ⟨x, hx, he⟩
    exact he ▸ hq x hx (hq0 x hx)
  · rw [map_field_eq f (fun it => it.id) hid c]
    exact hn
  · intro it hit
    rcases List.mem_map.mp hit with ⟨x, hx, he⟩
    rw [← he, hshop x]
    exact hne x hx

/-- A one-line cart with a non-empty shop id satisfies the invariants. -/
theorem cartInvNE_single (x : CartItem) (hq : 1 ≤ x.quantity)
    (hne : x.shop_id ≠ "") : cartInvNE [x] := by
  refine ⟨⟨?_, ?_, ?_⟩, ?_⟩
  · intro it hit
    rcases List.mem_singleton.mp hit with rfl
    rfl
  · intro it hit
    rcases List.mem_singleton.mp hit with rfl
    exact hq
  · simp
  · intro it hit
    rcases List.mem_singleton.mp hit with rfl
    exact hne

/-- Invariant preservation for `addToCart` when the added product has a
non-empty shop id. -/
theorem cartInvNE_add (conf : Bool) (p : Product) {c : List CartItem}
    (hp : p.shop_id ≠ "") (h : cartInvNE c) :
    cartInvNE (addToCart conf p c) := by
  unfold addToCart
  by_cases hconf : shopConflict p c
  · rw [if_pos hconf]
    cases conf with
    | true =>
      simp only [if_pos]
      exact cartInvNE_single (newCartItem p) (by simp [newCartItem]) hp
    | false => simpa using h
  · rw [if_neg hconf]
    by_cases hany : (c.any (fun it => it.id == p.id)) = true
    · rw [if_pos hany]
      refine cartInvNE_qmap _ ?_ ?_ ?_ h
      · intro it; split <;> rfl
      · intro it; split <;> rfl
      · intro it _ h1
        split
        · show 1 ≤ it.quantity + 1
          omega
        · exact h1
    · rw [if_neg hany]
      obtain ⟨⟨hs, hq, hn⟩, hne⟩ := h
      have hnotin : p.id ∉ c.map (fun it => it.id) := by
        intro hmem
        exact hany ((any_id_iff p.id c).mpr hmem)
      have hshop : ∀ it ∈ c, it.shop_id = p.shop_id := by
        cases c with
        | nil => intro it hit; simp at hit
        | cons a t =>
          have ha : a.shop_id ≠ "" := hne a (by simp)
          have htr : strTruthy (currentShopId (a :: t)) = true := by
            simp [currentShopId, strTruthy, ha]
          have hcur : currentShopId (a :: t) = some p.shop_id := by
            by_contra hcon
            exact hconf ⟨htr, hcon⟩
          have hap : a.shop_id = p.shop_id := by
            simpa [currentShopId] using hcur
          intro it hit
          have := shop_pairwise hs it hit a (by simp)
          rw [this, hap]
      refine ⟨⟨?_, ?_, ?_⟩, ?_⟩
      · refine shareShop_of_all_eq (s := p.shop_id) ?_
        intro it hit
        rcases List.mem_append.mp hit with hl | hr
        · exact hshop it hl
        · rcases List.mem_singleton.mp hr with rfl
          rfl
      · intro it hit
        rcases List.mem_append.mp hit with hl | hr
        · exact hq it hl
        · rcases List.mem_singleton.mp hr with rfl
          simp [newCartItem]
      · rw [List.map_append]
        rw [List.nodup_append]
        refine ⟨hn, by simp, ?_⟩
        intro x hx hy
        simp only [List.map_cons, List.map_nil, List.mem_singleton] at hy
        subst hy
        exact hnotin hx
      · intro it hit
        rcases List.mem_append.mp hit with hl | hr
        · exact hne it hl
        · rcases List.mem_singleton.mp hr with rfl
          exact hp

/-- Invariant preservation for `updateQuantity`. -/
theorem cartInvNE_update (pid : String) (qty : Int) {c : List CartItem}
    (h : cartInvNE c) : cartInvNE (updateQuantity pid qty c) := by
  unfold updateQuantity
  by_cases hq : qty ≤ 0
  · rw [if_pos hq]
    exact cartInvNE_remove pid h
  · rw [if_neg hq]
    refine cartInvNE_qmap _ ?_ ?_ ?_ h
    · intro it; split <;> rfl
    · intro it; split <;> rfl
    · intro it _ _
      split
      · show 1 ≤ qty
        omega
      · omega

/-- Invariant preservation for any single operation whose added product
(if any) has a non-empty shop id. -/
theorem cartInvNE_step (op : CartOp) {c : List CartItem}
    (hop : opOk op) (h : cartInvNE c) : cartInvNE (applyOp op c) := by
  cases op with
  | add conf p => exact cartInvNE_add conf p hop h
  | remove pid => exact cartInvNE_remove pid h
  | update pid qty => exact cartInvNE_update pid qty h
  | clear =>
    refine ⟨⟨?_, ?_, ?_⟩, ?_⟩ <;> simp [applyOp, clearCart, shareShop]

theorem cartInvNE_nil : cartInvNE [] := by decide

theorem cartInvNE_fold (ops : List CartOp) :
    ∀ (c : List CartItem), (∀ op ∈ ops, opOk op) → cartInvNE c →
      cartInvNE (ops.foldl (fun c op => applyOp op c) c) := by
  induction ops with
  | nil => intro c _ h; simpa using h
  | cons op t ih =>
    intro c hops h
    simp only [List.foldl_cons]
    exact ih _ (fun o ho => hops o (by simp [ho]))
      (cartInvNE_step op (hops op (by simp)) h)

theorem addToCart_same_shop {s : String} (conf : Bool) (p : Product)
    {c : List CartItem} (hc : ∀ it ∈ c, it.shop_id = s) (hp : p.shop_id = s)
    (hn : (c.map (fun it => it.id)).Nodup) :
    (∀ it ∈ addToCart conf p c, it.shop_id = s) ∧
    ((addToCart conf p c).map (fun it => it.id)).Nodup ∧
    getTotalItems (addToCart conf p c) = getTotalItems c + 1 ∧
    ((c.any (fun it => it.id == p.id)) = true →
      (addToCart conf p c).map (fun it => it.id) = c.map (fun it => it.id)) := by
  have hnc : ¬ shopConflict p c := no_conflict_of_same_shop hc hp
  unfold addToCart
  rw [if_neg hnc]
  by_cases hany : (c.any (fun it => it.id == p.id)) = true
  · rw [if_pos hany]
    have hid : ∀ it : CartItem,
        (if it.id == p.id then { it with quantity := it.quantity + 1 } else it).id
          = it.id := by
      intro it; split <;> rfl
    have hids := map_field_eq
      (fun it => if it.id == p.id then { it with quantity := it.quantity + 1 } else it)
      (fun it => it.id) hid c
    refine ⟨?_, ?_, ?_, fun _ => hids⟩
    · intro it hit
      rcases List.mem_map.mp hit with ⟨x, hx, he⟩
      rw [← he]
      have : (if x.id == p.id then { x with quantity := x.quantity + 1 } else x).shop_id
          = x.shop_id := by split <;> rfl
      rw [this]
      exact hc x hx
    · rw [hids]; exact hn
    · rw [getTotalItems_eq_sum, getTotalItems_eq_sum]
      exact incr_sum p.id c hn ((any_id_iff p.id c).mp hany)
  · rw [if_neg hany]
    have hnotin : p.id ∉ c.map (fun it => it.id) := by
      intro hmem
      exact hany ((any_id_iff p.id c).mpr hmem)
    refine ⟨?_, ?_, ?_, fun h' => absurd h' hany⟩
    · intro it hit
      rcases List.mem_append.mp hit with hl | hr
      · exact hc it hl
      · rcases List.mem_singleton.mp hr with rfl
        exact hp
    · rw [List.map_append, List.nodup_append]
      refine ⟨hn, by simp, ?_⟩
      intro x hx hy
      simp only [List.map_cons, List.map_nil, List.mem_singleton] at hy
      subst hy
      exact hnotin hx
    · rw [getTotalItems_eq_sum, getTotalItems_eq_sum, List.map_append,
        List.sum_append]
      simp [newCartItem]

theorem runAdds_fold_inv {s : String} (ps : List (Bool × Product)) :
    ∀ (c : List CartItem), (∀ x ∈ ps, (x.2).shop_id = s) →
      (∀ it ∈ c, it.shop_id = s) → (c.map (fun it => it.id)).Nodup →
      (∀ it ∈ ps.foldl (fun acc x => addToCart x.1 x.2 acc) c, it.shop_id = s) ∧
      ((ps.foldl (fun acc x => addToCart x.1 x.2 acc) c).map (fun it => it.id)).Nodup ∧
      getTotalItems (ps.foldl (fun acc x => addToCart x.1 x.2 acc) c)
        = getTotalItems c + ps.length := by
  induction ps with
  | nil => intro c _ hc hn; simpa using ⟨hc, hn⟩
  | cons x t ih =>
    intro c hps hc hn
    simp only [List.foldl_cons]
    have hx : (x.2).shop_id = s := hps x (by simp)
    have hstep := addToCart_same_shop x.1 x.2 hc hx hn
    have hrec := ih (addToCart x.1 x.2 c) (fun y hy => hps y (by simp [hy]))
      hstep.1 hstep.2.1
    refine ⟨hrec.1, hrec.2.1, ?_⟩
    rw [hrec.2.2, hstep.2.2.1]
    simp [List.length_cons]
    ring

/-! ### C1 -/

/-- C1 counterexample: the claim fails as stated.  A product with an
empty-string shop id is a reachable cart state (`runOps` of one add),
and a subsequent `addToCart` of a different-shop product slips past the
JS-truthiness guard (`currentShopId && ...` with `currentShopId = ""`),
producing a cart whose lines do not share one shop id. -/
theorem cart_invariants_counterexample :
    cartInv (runOps [.add true productEmptyShop]) ∧
    ¬ cartInv (applyOp (.add true productShop2) (runOps [.add true productEmptyShop])) := by
  decide

/-- C1 (amended): every cart state reachable from the empty cart by
`addToCart` / `removeFromCart` / `updateQuantity` / `clearCart`, where
every added product carries a non-empty shop id, satisfies the spec's
invariants: all lines share one shop id equal to the cart's current shop
id (or the cart is empty), every quantity is at least 1, and product ids
are unique. -/
theorem cart_invariants_reachable (ops : List CartOp)
    (hops : ∀ op ∈ ops, opOk op) : cartInv (runOps ops) :=
  (cartInvNE_fold ops [] hops cartInvNE_nil).1

/-- Witness for `cart_invariants_reachable` on a concrete operation
sequence exercising all four operations. -/
theorem cart_invariants_reachable_witness :
    (∀ op ∈ ([.add true productShop1, .add false productShop1,
        .update "p3" 5, .add true productShop2, .remove "p2",
        .add true productShop2, .update "p2" 0, .clear,
        .add true productShop1] : List CartOp), opOk op) ∧
    cartInv (runOps [.add true productShop1, .add false productShop1,
        .update "p3" 5, .add true productShop2, .remove "p2",
        .add true productShop2, .update "p2" 0, .clear,
        .add true productShop1]) :=
  ⟨by decide, cart_invariants_reachable _ (by decide)⟩

/-! ### C2 -/

/-- C2 counterexample: the claim fails as stated.  A non-empty cart
whose (empty-string) shop id differs from the added product's shop id
does not trigger the confirmation path at all: the confirmed add yields
two lines instead of exactly one. -/
theorem add_different_shop_counterexample :
    ([sampleItemEmptyShop] : List CartItem) ≠ [] ∧
    currentShopId [sampleItemEmptyShop] = some "" ∧
    productShop2.shop_id ≠ "" ∧
    currentShopId [sampleItemEmptyShop] ≠ some productShop2.shop_id ∧
    (addToCart true productShop2 [sampleItemEmptyShop]).length = 2 := by
  decide

/-- C2 (amended): for every non-empty cart whose current shop id is
non-empty and every product of a different shop, the confirmed add
yields exactly the one new line with quantity 1 and the cart's shop id
updated; the declined add leaves the cart unchanged. -/
theorem add_different_shop (p : Product) (c : List CartItem) (s : String)
    (hcur : currentShopId c = some s) (hne : s ≠ "") (hdiff : s ≠ p.shop_id) :
    addToCart true p c = [newCartItem p] ∧
    (newCartItem p).quantity = 1 ∧
    currentShopId (addToCart true p c) = some p.shop_id ∧
    addToCart false p c = c := by
  have hconf : shopConflict p c := by
    constructor
    · simp [strTruthy, hcur, hne]
    · rw [hcur]
      simpa using hdiff
  refine ⟨?_, rfl, ?_, ?_⟩
  · unfold addToCart
    rw [if_pos hconf]
    rfl
  · unfold addToCart
    rw [if_pos hconf]
    rfl
  · unfold addToCart
    rw [if_pos hconf]
    rfl

/-- Witness for `add_different_shop` on a one-line `shop1` cart and a
`shop2` product. -/
theorem add_different_shop_witness :
    addToCart true productShop2 [sampleItemA] = [newCartItem productShop2] ∧
    (newCartItem productShop2).quantity = 1 ∧
    currentShopId (addToCart true productShop2 [sampleItemA])
      = some productShop2.shop_id ∧
    addToCart false productShop2 [sampleItemA] = [sampleItemA] :=
  add_different_shop productShop2 [sampleItemA] "shop1"
    (by decide) (by decide) (by decide)

/-! ### C7 -/

/-- C7: for every sequence of `addToCart` calls all carrying one shop
id, starting from the empty cart, `getTotalItems` equals the sum of the
line quantities, the product ids are unique (and the total equals the
number of calls), and an add for an already-present product id keeps
the id list unchanged while raising the total by one (increment, not
append). -/
theorem add_sequence_totals (s : String) (ps : List (Bool × Product))
    (hps : ∀ x ∈ ps, (x.2).shop_id = s) :
    getTotalItems (runAdds ps)
      = ((runAdds ps).map (fun it => it.quantity)).sum ∧
    ((runAdds ps).map (fun it => it.id)).Nodup ∧
    getTotalItems (runAdds ps) = ps.length ∧
    (∀ (conf : Bool) (p : Product), p.shop_id = s →
      ((runAdds ps).any (fun it => it.id == p.id)) = true →
      (addToCart conf p (runAdds ps)).map (fun it => it.id)
          = (runAdds ps).map (fun it => it.id) ∧
      getTotalItems (addToCart conf p (runAdds ps))
          = getTotalItems (runAdds ps) + 1) := by
  have hinv := runAdds_fold_inv (s := s) ps [] hps
    (by intro it hit; simp at hit) (by simp)
  have h0 : runAdds ps = ps.foldl (fun acc x => addToCart x.1 x.2 acc) [] := rfl
  refine ⟨getTotalItems_eq_sum _, ?_, ?_, ?_⟩
  · rw [h0]; exact hinv.2.1
  · rw [h0, hinv.2.2]
    simp [getTotalItems]
  · intro conf p hp hany
    have hstep := addToCart_same_shop conf p (c := runAdds ps)
      (by rw [h0]; exact hinv.1) hp (by rw [h0]; exact hinv.2.1)
    exact ⟨hstep.2.2.2 hany, hstep.2.2.1⟩

/-- Witness for `add_sequence_totals` on a concrete same-shop sequence
with a repeated product. -/
theorem add_sequence_totals_witness :
    (∀ x ∈ ([(true, productShop1), (false, productSameIdSameShop),
        (true, productShop1)] : List (Bool × Product)), (x.2).shop_id = "shop1") ∧
    (getTotalItems (runAdds [(true, productShop1), (false, productSameIdSameShop),
        (true, productShop1)])
      = ((runAdds [(true, productShop1), (false, productSameIdSameShop),
        (true, productShop1)]).map (fun it => it.quantity)).sum ∧
    ((runAdds [(true, productShop1), (false, productSameIdSameShop),
        (true, productShop1)]).map (fun it => it.id)).Nodup ∧
    getTotalItems (runAdds [(true, productShop1), (false, productSameIdSameShop),
        (true, productShop1)]) = 3 ∧
    (∀ (conf : Bool) (p : Product), p.shop_id = "shop1" →
      ((runAdds [(true, productShop1), (false, productSameIdSameShop),
          (true, productShop1)]).any (fun it => it.id == p.id)) = true →
      (addToCart conf p (runAdds [(true, productShop1), (false, productSameIdSameShop),
          (true, productShop1)])).map (fun it => it.id)
          = (runAdds [(true, productShop1), (false, productSameIdSameShop),
          (true, productShop1)]).map (fun it => it.id) ∧
      getTotalItems (addToCart conf p (runAdds [(true, productShop1),
          (false, productSameIdSameShop), (true, productShop1)]))
          = getTotalItems (runAdds [(true, productShop1), (false, productSameIdSameShop),
          (true, productShop1)]) + 1)) :=
  ⟨by decide, add_sequence_totals "shop1" _ (by decide)⟩

/-! ### C8 -/

/-- C8: `updateQuantity` with 0 or -1 removes the line entirely (and
only it), and `updateQuantity` with 3 sets that line's quantity to
exactly 3 while keeping the line count, the id sequence, and all other
lines unchanged. -/
theorem update_quantity_cases (c : List CartItem) (pid : String)
    (hmem : pid ∈ c.map (fun it => it.id)) :
    (∀ it, it ∈ updateQuantity pid 0 c ↔ (it ∈ c ∧ it.id ≠ pid)) ∧
    updateQuantity pid (-1) c = updateQuantity pid 0 c ∧
    (updateQuantity pid 3 c).length = c.length ∧
    (updateQuantity pid 3 c).map (fun it => it.id) = c.map (fun it => it.id) ∧
    (∃ it, it ∈ updateQuantity pid 3 c ∧ it.id = pid ∧ it.quantity = 3) ∧
    (∀ it, it ∈ updateQuantity pid 3 c → it.id = pid → it.quantity = 3) ∧
    (∀ it, it ∈ updateQuantity pid 3 c → it.id ≠ pid → it ∈ c) := by
  have h0 : updateQuantity pid 0 c = removeFromCart pid c := by
    unfold updateQuantity
    rw [if_pos (by omega : (0 : Int) ≤ 0)]
  have h3 : updateQuantity pid 3 c
      = c.map (fun it => if it.id == pid then { it with quantity := 3 } else it) := by
    unfold updateQuantity
    rw [if_neg (by omega : ¬ (3 : Int) ≤ 0)]
  refine ⟨?_, ?_, ?_, ?_, ?_, ?_, ?_⟩
  · intro it
    rw [h0]
    unfold removeFromCart
    simp [List.mem_filter]
  · rw [h0]
    unfold updateQuantity
    rw [if_pos (by omega : (-1 : Int) ≤ 0)]
  · rw [h3, List.length_map]
  · rw [h3]
    refine map_field_eq _ (fun it => it.id) ?_ c
    intro it; split <;> rfl
  · rcases List.mem_map.mp hmem with ⟨x, hx, he⟩
    refine ⟨{ x with quantity := 3 }, ?_, he, rfl⟩
    rw [h3]
    refine List.mem_map.mpr ⟨x, hx, ?_⟩
    rw [if_pos (by simpa using he)]
  · intro it hit hid
    rw [h3] at hit
    rcases List.mem_map.mp hit with ⟨x, hx, he⟩
    by_cases hxp : x.id = pid
    · rw [if_pos (by simpa using hxp)] at he
      rw [← he]
    · rw [if_neg (by simpa using hxp)] at he
      exact absurd (he ▸ hid) hxp
  · intro it hit hid
    rw [h3] at hit
    rcases List.mem_map.mp hit with ⟨x, hx, he⟩
    by_cases hxp : x.id = pid
    · rw [if_pos (by simpa using hxp)] at he
      exact absurd (by rw [← he]; exact hxp) hid
    · rw [if_neg (by simpa using hxp)] at he
      exact he ▸ hx

/-- Witness for `update_quantity_cases` on a two-line cart. -/
theorem update_quantity_cases_witness :
    "p1" ∈ ([sampleItemA, sampleItemB] : List CartItem).map (fun it => it.id) ∧
    (∀ it, it ∈ updateQuantity "p1" 0 [sampleItemA, sampleItemB]
        ↔ (it ∈ ([sampleItemA, sampleItemB] : List CartItem) ∧ it.id ≠ "p1")) ∧
    updateQuantity "p1" (-1) [sampleItemA, sampleItemB]
        = updateQuantity "p1" 0 [sampleItemA, sampleItemB] ∧
    (updateQuantity "p1" 3 [sampleItemA, sampleItemB]).length
        = ([sampleItemA, sampleItemB] : List CartItem).length ∧
    (updateQuantity "p1" 3 [sampleItemA, sampleItemB]).map (fun it => it.id)
        = ([sampleItemA, sampleItemB] : List CartItem).map (fun it => it.id) ∧
    (∃ it, it ∈ updateQuantity "p1" 3 [sampleItemA, sampleItemB]
        ∧ it.id = "p1" ∧ it.quantity = 3) ∧
    (∀ it, it ∈ updateQuantity "p1" 3 [sampleItemA, sampleItemB]
        → it.id = "p1" → it.quantity = 3) ∧
    (∀ it, it ∈ updateQuantity "p1" 3 [sampleItemA, sampleItemB]
        → it.id ≠ "p1" → it ∈ ([sampleItemA, sampleItemB] : List CartItem)) :=
  ⟨by decide, update_quantity_cases [sampleItemA, sampleItemB] "p1" (by decide)⟩

/-! ### C10 -/

/-- C10 counterexample: the claim fails as stated.  Passing a product
with the same product id but a different shop id takes the
different-shop path, and the confirmed add replaces the cart with the
new product's values: the stored name is not preserved and the quantity
is not incremented. -/
theorem add_existing_frame_counterexample :
    sampleItemA.id = productSameIdOtherShop.id ∧
    addToCart true productSameIdOtherShop [sampleItemA]
      = [newCartItem productSameIdOtherShop] ∧
    ¬ ((addToCart true productSameIdOtherShop [sampleItemA]).map
          (fun it => it.quantity) = [3] ∧
       (addToCart true productSameIdOtherShop [sampleItemA]).map
          (fun it => it.name) = ["Rice"]) := by
  decide

/-- C10 (amended): for every cart line already present and every
product with the same product id passed to `addToCart` that does not
take the different-shop path (its shop id equals the cart's current
shop id, or that id is null/empty), only the matching line's quantity
changes (incremented by one): the stored name, unit price, image
reference, shop id, and unit keep the values captured when the line was
first added, and every other line is untouched. -/
theorem add_existing_id_frame (conf : Bool) (p : Product) (c : List CartItem)
    (hnc : ¬ shopConflict p c)
    (hany : (c.any (fun it => it.id == p.id)) = true) :
    addToCart conf p c
      = c.map (fun it =>
          if it.id == p.id then { it with quantity := it.quantity + 1 } else it) ∧
    (addToCart conf p c).map (fun it => it.id) = c.map (fun it => it.id) ∧
    (addToCart conf p c).map (fun it => it.name) = c.map (fun it => it.name) ∧
    (addToCart conf p c).map (fun it => it.price) = c.map (fun it => it.price) ∧
    (addToCart conf p c).map (fun it => it.image_url)
        = c.map (fun it => it.image_url) ∧
    (addToCart conf p c).map (fun it => it.shop_id) = c.map (fun it => it.shop_id) ∧
    (addToCart conf p c).map (fun it => it.unit) = c.map (fun it => it.unit) ∧
    (∀ it ∈ c, it.id = p.id →
        { it with quantity := it.quantity + 1 } ∈ addToCart conf p c) ∧
    (∀ it ∈ c, it.id ≠ p.id → it ∈ addToCart conf p c) := by
  have heq : addToCart conf p c
      = c.map (fun it =>
          if it.id == p.id then { it with quantity := it.quantity + 1 } else it) := by
    unfold addToCart
    rw [if_neg hnc, if_pos hany]
  refine ⟨heq, ?_, ?_, ?_, ?_, ?_, ?_, ?_, ?_⟩
  · rw [heq]; exact map_field_eq _ _ (by intro it; split <;> rfl) c
  · rw [heq]; exact map_field_eq _ _ (by intro it; split <;> rfl) c
  · rw [heq]; exact map_field_eq _ _ (by intro it; split <;> rfl) c
  · rw [heq]; exact map_field_eq _ _ (by intro it; split <;> rfl) c
  · rw [heq]; exact map_field_eq _ _ (by intro it; split <;> rfl) c
  · rw [heq]; exact map_field_eq _ _ (by intro it; split <;> rfl) c
  · intro it hit hid
    rw [heq]
    refine List.mem_map.mpr ⟨it, hit, ?_⟩
    rw [if_pos (by simpa using hid)]
  · intro it hit hid
    rw [heq]
    refine List.mem_map.mpr ⟨it, hit, ?_⟩
    rw [if_neg (by simpa using hid)]

/-- Witness for `add_existing_id_frame`: a same-shop product with the
stored id but different display fields only bumps the quantity. -/
theorem add_existing_id_frame_witness :
    ¬ shopConflict productSameIdSameShop [sampleItemA, sampleItemB] ∧
    (([sampleItemA, sampleItemB] : List CartItem).any
        (fun it => it.id == productSameIdSameShop.id)) = true ∧
    addToCart true productSameIdSameShop [sampleItemA, sampleItemB]
      = [{ sampleItemA with quantity := 3 }, sampleItemB] ∧
    (addToCart true productSameIdSameShop [sampleItemA, sampleItemB]).map
        (fun it => it.name) = ["Rice", "Dal"] :=
  ⟨by decide, by decide, by
    have h := add_existing_id_frame true productSameIdSameShop
      [sampleItemA, sampleItemB] (by decide) (by decide)
    rw [h.1]
    decide, by
    have h := add_existing_id_frame true productSameIdSameShop
      [sampleItemA, sampleItemB] (by decide) (by decide)
    rw [h.2.2.1]
    decide⟩

/-! ### C9 -/

theorem decodeItem_encodeItem (it : CartItem) :
    decodeItem (encodeItem it) = some it := rfl

theorem decodeItems_serializeCart (items : List CartItem) :
    decodeItems (serializeCart items) = some items := by
  induction items with
  | nil => rfl
  | cons a t ih =>
    simp only [serializeCart, List.map_cons, decodeItems, decodeItem_encodeItem]
    rw [show decodeItems (t.map encodeItem) = some t from ih]

/-- C9: serializing the item list to the persisted cart key, discarding
the in-memory state, and rehydrating from that key yields an item list
structurally equal to the pre-serialize one. -/
theorem persist_reload_roundtrip (items : List CartItem) :
    rehydrate (persistCart items) = items ∧
    decodeItems (serializeCart items) = some items := by
  have h := decodeItems_serializeCart items
  refine ⟨?_, h⟩
  simp [rehydrate, persistCart, h]

/-! ### C3 -/

/-- C3: a session transition from authenticated to anonymous with a
non-empty cart clears the in-memory items, removes the persisted blob,
and emits exactly one notice (the immediately following observation
emits none); a sign-out with an empty cart performs no clearing and no
notice; and the reaction is skipped entirely while `isInitialLoad`
holds, i.e. on the very first observation after startup. -/
theorem signout_clears_cart (s : CartStoreState) (u : String)
    (hinit : s.isInitialLoad = false) (hprev : s.previousUser = some u) :
    (s.items ≠ [] →
      sessionEffect none false s
        = ({ s with items := [], storage := none, previousUser := none }, 1) ∧
      (sessionEffect none false (sessionEffect none false s).1).2 = 0) ∧
    (s.items = [] →
      sessionEffect none false s = ({ s with previousUser := none }, 0)) ∧
    (∀ (user : Option String) (loading : Bool) (s' : CartStoreState),
      s'.isInitialLoad = true →
      (sessionEffect user loading s').1.items = s'.items ∧
      (sessionEffect user loading s').1.storage = s'.storage ∧
      (sessionEffect user loading s').2 = 0) := by
  refine ⟨?_, ?_, ?_⟩
  · intro hne
    have hlen : decide (0 < s.items.length) = true := by
      simp [List.length_pos, hne]
    have h1 : sessionEffect none false s
        = ({ s with items := [], storage := none, previousUser := none }, 1) := by
      simp [sessionEffect, hinit, hprev, hlen]
    refine ⟨h1, ?_⟩
    rw [h1]
    simp [sessionEffect, hinit]
  · intro hemp
    simp [sessionEffect, hinit, hprev, hemp]
  · intro user loading s' hinit'
    cases loading <;> simp [sessionEffect, hinit']

/-- Witness for `signout_clears_cart` on a concrete signed-in store
state with one cart line. -/
theorem signout_clears_cart_witness :
    cartStoreSample.isInitialLoad = false ∧
    cartStoreSample.previousUser = some "user1" ∧
    cartStoreSample.items ≠ [] ∧
    (sessionEffect none false cartStoreSample).1.items = [] ∧
    (sessionEffect none false cartStoreSample).1.storage = none ∧
    (sessionEffect none false cartStoreSample).2 = 1 ∧
    (sessionEffect none false (sessionEffect none false cartStoreSample).1).2 = 0 := by
  have h := (signout_clears_cart cartStoreSample "user1" rfl rfl).1 (by decide)
  exact ⟨rfl, rfl, by decide, by rw [h.1], by rw [h.1], by rw [h.1], h.2⟩

/-! ### C4 -/

/-- C4, evaluated at the failing input: the navigation effect lists
`currentPage` and `intendedDestination` among its dependencies, so
after `handleNavigation('checkout')` redirects an anonymous user to the
auth page the effect runs again, still without identity, and its
`!user` branch clears the remembered target on that very observation —
not only on sign-out.  The subsequent successful sign-in therefore
takes the no-target branch and lands on `home` with the review flag
unset, while the claim (and spec §4.3/§8) demand landing on `cart`
with the review flag set. -/
theorem checkout_anonymous_cleared_early :
    (handleNavigation .checkout none true appStateHomeSample).1.intendedDestination
      = some .cart ∧
    (handleNavigation .checkout none true appStateHomeSample).1.currentPage
      = .auth ∧
    (authEffect none false true
        (handleNavigation .checkout none true
          appStateHomeSample).1).1.intendedDestination = none ∧
    (authEffect (some "user1") false true
        (authEffect none false true
          (handleNavigation .checkout none true
            appStateHomeSample).1).1).1.currentPage = .home ∧
    (authEffect (some "user1") false true
        (authEffect none false true
          (handleNavigation .checkout none true
            appStateHomeSample).1).1).1.showCartReviewMessage = false := by
  decide

/-! ### C5 -/

/-- C5: requesting checkout while authenticated with an incomplete
profile notifies the user, remembers `checkout` as the resume target,
and redirects to the profile page; a subsequent save making all five
required fields non-empty lands on `cart` with the review flag set (not
directly on `checkout`) and clears the target. -/
theorem checkout_incomplete_profile (s : AppState) (u : String)
    (up : Option Profile) (hpc : isProfileComplete up = false) :
    (handleNavigation .checkout (some u) (isProfileComplete up) s).2 = true ∧
    (handleNavigation .checkout (some u) (isProfileComplete up) s).1.currentPage
      = .profile ∧
    (handleNavigation .checkout (some u) (isProfileComplete up)
        s).1.intendedDestination = some .checkout ∧
    (∀ p : Profile, profileFieldsComplete p = true →
      (handleSave p (handleNavigation .checkout (some u) (isProfileComplete up)
          s).1).currentPage = .cart ∧
      (handleSave p (handleNavigation .checkout (some u) (isProfileComplete up)
          s).1).currentPage ≠ .checkout ∧
      (handleSave p (handleNavigation .checkout (some u) (isProfileComplete up)
          s).1).showCartReviewMessage = true ∧
      (handleSave p (handleNavigation .checkout (some u) (isProfileComplete up)
          s).1).intendedDestination = none) := by
  have h1 : handleNavigation .checkout (some u) (isProfileComplete up) s
      = ({ s with intendedDestination := some Page.checkout,
                  currentPage := Page.profile }, true) := by
    simp [handleNavigation, hpc]
  refine ⟨by rw [h1], by rw [h1], by rw [h1], ?_⟩
  intro p hp
  rw [h1]
  simp [handleSave, hp, onProfileComplete]

/-- Witness for `checkout_incomplete_profile`: a profile with an empty
address is incomplete; a fully filled profile completes the detour. -/
theorem checkout_incomplete_profile_witness :
    isProfileComplete (some profileIncompleteSample) = false ∧
    profileFieldsComplete profileCompleteSample = true ∧
    (handleNavigation .checkout (some "user1")
        (isProfileComplete (some profileIncompleteSample))
        appStateCartSample).1.currentPage = .profile ∧
    (handleSave profileCompleteSample
      (handleNavigation .checkout (some "user1")
        (isProfileComplete (some profileIncompleteSample))
        appStateCartSample).1).currentPage = .cart ∧
    (handleSave profileCompleteSample
      (handleNavigation .checkout (some "user1")
        (isProfileComplete (some profileIncompleteSample))
        appStateCartSample).1).showCartReviewMessage = true := by
  have h := checkout_incomplete_profile appStateCartSample "user1"
    (some profileIncompleteSample) rfl
  exact ⟨rfl, rfl, h.2.1,
    (h.2.2.2 profileCompleteSample rfl).1, (h.2.2.2 profileCompleteSample rfl).2.2.1⟩

/-! ### C6 -/

/-- C6: `checkServiceAvailability` is true exactly when the label and
an allow-listed place name match as case-insensitive substrings in
either direction; allow-listed names in any casing and their substrings
pass, `Mumbai` fails; and the sentinel labels (`Location access
denied`, `Location unavailable`, and the unresolved placeholder
`Your Location`) never render the service-unavailable UI — a denied
label renders the permission-prompt UI. -/
theorem service_gate_policy :
    (∀ label : String, checkServiceAvailability label = true ↔
      ∃ ac ∈ availableCities,
        (isSubstrList (jsLower label) (jsLower ac) = true ∨
         isSubstrList (jsLower ac) (jsLower label) = true)) ∧
    checkServiceAvailability "Ramagiri" = true ∧
    checkServiceAvailability "RAMAgiri" = true ∧
    checkServiceAvailability "amagir" = true ∧
    checkServiceAvailability "Mumbai" = false ∧
    (∀ (u a : Bool), renderGate u "Location access denied" a = .permissionPrompt) ∧
    (∀ (u a : Bool),
      renderGate u "Location access denied" a ≠ .serviceUnavailable ∧
      renderGate u "Location unavailable" a ≠ .serviceUnavailable ∧
      renderGate u "Your Location" a ≠ .serviceUnavailable) := by
  refine ⟨?_, by decide, by decide, by decide, by decide, by decide, by decide⟩
  intro label
  simp only [checkServiceAvailability, List.any_eq_true, Bool.or_eq_true]
  constructor
  · rintro ⟨ac, hac, h⟩
    exact ⟨ac, hac, h.symm⟩
  · rintro ⟨ac, hac, h⟩
    exact ⟨ac, hac, h.symm⟩

end Quickoo
